import Mathlib

/-!
Verification of the patch-application and failure-classification engines of
the rest-assured-self-healing-mcp repository, as a shallow embedding in Lean.

The embedding models Python strings as Lean `String` (a list of characters),
the repository working tree as an association list from repo-relative paths
to file contents, and external subprocess calls (git apply) as an oracle
parameter.  Every definition is translated from the Python source in
`src/patch_applier.py` and `src/failure_analyzer.py`, except where a doc
comment says `Modelled from the spec:`.
-/

/-- The set of characters Python's `str.strip()` / `str.split()` treat as
whitespace (ASCII part, which is all that occurs in patch text). -/
def isPyWs (c : Char) : Bool :=
  c == ' ' || c == '\t' || c == '\n' || c == '\r' ||
  c == Char.ofNat 11 || c == Char.ofNat 12

/-- Python `s.strip()`: remove leading and trailing whitespace. -/
def pyStrip (s : String) : String :=
  ⟨((s.data.dropWhile isPyWs).reverse.dropWhile isPyWs).reverse⟩

/-- Python `"".join(s.split())`: removing all whitespace characters. -/
def removeWs (s : String) : String :=
  ⟨s.data.filter (fun c => !isPyWs c)⟩

/-- Python `s.startswith(p)`. -/
def pyStartsWith (s p : String) : Bool :=
  p.data.isPrefixOf s.data

/-- Python `s.endswith(p)`. -/
def pyEndsWith (s p : String) : Bool :=
  p.data.isSuffixOf s.data

/-- Python `s[n:]`. -/
def pyDrop (s : String) (n : Nat) : String :=
  ⟨s.data.drop n⟩

/-- Python `pat in hay` (substring containment), over character lists. -/
def listHasSub (pat : List Char) : List Char → Bool
  | [] => pat.isEmpty
  | c :: cs => pat.isPrefixOf (c :: cs) || listHasSub pat cs

/-- Python `pat in hay` for strings. -/
def hasSubstr (hay pat : String) : Bool :=
  listHasSub pat.data hay.data

/-- Index of the first occurrence of `pat` in the list, if any. -/
def subIdxAux (pat : List Char) : List Char → Option Nat
  | [] => if pat.isEmpty then some 0 else none
  | c :: cs => if pat.isPrefixOf (c :: cs) then some 0
               else (subIdxAux pat cs).map (· + 1)

/-- Python `s.split(pat)[1]` head part: everything after the first occurrence
of `pat` (the whole string when `pat` is absent, a case the source guards
against with an `in` test before splitting). -/
def afterFirstSub (s pat : String) : String :=
  match subIdxAux pat.data s.data with
  | some i => ⟨s.data.drop (i + pat.data.length)⟩
  | none => s

/-- Python `s.split(pat)[0]`: everything before the first occurrence of `pat`
(the whole string when `pat` is absent). -/
def beforeFirstSub (s pat : String) : String :=
  match subIdxAux pat.data s.data with
  | some i => ⟨s.data.take i⟩
  | none => s

/-- Normalization of one maximal digit run for `normalize_nums`
(`patch_applier.py` line 194, `re.sub(r'(?<!\d)0+(\d+)', r'\1', s)`).
The regex matches a maximal digit run that starts with `0` and has at least
two digits (the lookbehind blocks starts inside a run); greedy matching
consumes the whole run and keeps only the part after the matched zeros, so
an all-zero run collapses to a single `0` and otherwise the leading zeros
are dropped.  A lone `0`, or a run not starting with `0`, is unchanged. -/
def normRun (r : List Char) : List Char :=
  if 2 ≤ r.length && r.headD ' ' == '0' then
    let d := r.dropWhile (· == '0')
    if d.isEmpty then ['0'] else d
  else r

/-- `normalize_nums` over a character list: rewrite each maximal digit run
by `normRun`, leaving other characters alone.  The `fuel` argument bounds
the recursion structurally; it never runs out when initialized to the list
length, since every step consumes at least one character. -/
def normNumsFuel : Nat → List Char → List Char
  | 0, _ => []
  | _ + 1, [] => []
  | fuel + 1, c :: cs =>
    if c.isDigit then
      normRun (c :: cs.takeWhile Char.isDigit) ++ normNumsFuel fuel (cs.dropWhile Char.isDigit)
    else
      c :: normNumsFuel fuel cs

/-- `normalize_nums` from `patch_applier.py` (line 191). -/
def normalizeNums (s : String) : String :=
  ⟨normNumsFuel s.data.length s.data⟩

/-- `PatchApplier._lines_match` (`patch_applier.py` lines 174-203): three
escalating passes — stripped equality, whitespace-free equality, then
whitespace-free equality after numeric-literal normalization of the
stripped lines. -/
def linesMatch (l1 l2 : String) : Bool :=
  if pyStrip l1 = pyStrip l2 then true
  else if removeWs l1 = removeWs l2 then true
  else if removeWs (normalizeNums (pyStrip l1)) = removeWs (normalizeNums (pyStrip l2)) then true
  else false

/-- Python `s.split('\n')` helper: accumulate the current (reversed) line. -/
def splitNlAux : List Char → List Char → List String
  | acc, [] => [⟨acc.reverse⟩]
  | acc, c :: cs => if c = '\n' then ⟨acc.reverse⟩ :: splitNlAux [] cs else splitNlAux (c :: acc) cs

/-- Python `s.split('\n')`: split on newlines, keeping empty segments. -/
def pySplitLines (s : String) : List String :=
  splitNlAux [] s.data

/-- Python `'\n'.join(lines)`. -/
def joinNl (lines : List String) : String :=
  ⟨List.intercalate ['\n'] (lines.map String.data)⟩

/-- One parsed replace-edit: the old line text and the new line text, both
with their leading `-` / `+` marker removed (`line[1:]`). -/
structure LineEdit where
  old : String
  new : String
deriving DecidableEq, Repr

/-- A delete line of a hunk: starts with `-` but is not a `---` header
(`patch_applier.py` line 299). -/
def isDelLine (l : String) : Bool :=
  pyStartsWith l "-" && !pyStartsWith l "---"

/-- An add line of a hunk: starts with `+` but is not a `+++` header
(`patch_applier.py` line 302). -/
def isAddLine (l : String) : Bool :=
  pyStartsWith l "+" && !pyStartsWith l "+++"

/-- The change-extraction loop of `PatchApplier._parse_diff`
(`patch_applier.py` lines 295-307): scan the lines with index `i`; when a
delete line is immediately followed by an add line, record the pair and
advance by two, otherwise advance by one. -/
def parseChanges : List String → List LineEdit
  | [] => []
  | [_] => []
  | l1 :: l2 :: rest =>
    if isDelLine l1 && isAddLine l2 then
      ⟨pyDrop l1 1, pyDrop l2 1⟩ :: parseChanges rest
    else
      parseChanges (l2 :: rest)

/-- Declarative reading of the spec sentence for C2: every adjacent
delete/add pair of the line list, in source order. -/
def allAdjacentPairs : List String → List LineEdit
  | l1 :: l2 :: rest =>
    (if isDelLine l1 && isAddLine l2 then [⟨pyDrop l1 1, pyDrop l2 1⟩] else []) ++
      allAdjacentPairs (l2 :: rest)
  | _ => []

/-- The path-header scan of `PatchApplier._parse_diff` (`patch_applier.py`
lines 278-289): a `+++ b/` or bare `+++ ` line wins immediately (the loop
breaks), while a `--- a/` line records the path and keeps scanning. -/
def findPath : List String → Option String → Option String
  | [], acc => acc
  | l :: rest, acc =>
    if pyStartsWith l "+++ b/" then some (pyStrip (pyDrop l 6))
    else if pyStartsWith l "+++ " then some (pyStrip (pyDrop l 4))
    else if pyStartsWith l "--- a/" then findPath rest (some (pyStrip (pyDrop l 6)))
    else findPath rest acc

/-- The structured result of `_parse_diff`: the claimed target path and the
ordered replace-edits. -/
structure PatchDoc where
  path : String
  changes : List LineEdit
deriving DecidableEq, Repr

/-- `PatchApplier._parse_diff` (`patch_applier.py` lines 269-316): locate a
path header, fail (`None`) when none is found or the extracted path is the
empty string (Python's `if not file_path`), and collect the adjacent
delete/add pairs. -/
def parseDiff (t : String) : Option PatchDoc :=
  let lines := pySplitLines t
  match findPath lines none with
  | none => none
  | some p => if p = "" then none else some ⟨p, parseChanges lines⟩

/-- The `/workspace/` pattern of `PatchApplier._normalize_paths`. -/
def wsPat : List Char := "/workspace/".data

/-- Python `s.replace("/workspace/", "")` over a character list: one
left-to-right scan deleting each non-overlapping occurrence, continuing
after the deleted occurrence without rescanning.  Fuel-bounded structural
recursion; fuel equal to the list length never runs out. -/
def dropWsFuel : Nat → List Char → List Char
  | 0, _ => []
  | _ + 1, [] => []
  | fuel + 1, c :: cs =>
    if wsPat.isPrefixOf (c :: cs) then dropWsFuel fuel ((c :: cs).drop 11)
    else c :: dropWsFuel fuel cs

/-- `PatchApplier._normalize_paths` (`patch_applier.py` lines 46-53):
delete every occurrence of `/workspace/` from the patch text. -/
def normalizePaths (s : String) : String :=
  ⟨dropWsFuel s.data.length s.data⟩

/-- The markdown-fence cleaning at the top of `PatchApplier.apply_patch`
(`patch_applier.py` lines 16-19): keep the text between the first fence
opener and the next fence. -/
def stripFences (c : String) : String :=
  if hasSubstr c "```diff" then beforeFirstSub (afterFirstSub c "```diff") "```"
  else if hasSubstr c "```" then beforeFirstSub (afterFirstSub c "```") "```"
  else c

/-- The repository working tree: repo-relative file paths mapped to the
file's lines as Python `readlines()` returns them (each line keeping its
trailing newline, except possibly the last). -/
abbrev Fs : Type := List (String × List String)

/-- Python `os.path.basename`: the component after the last `/`. -/
def basename (p : String) : String :=
  ⟨(p.data.reverse.takeWhile (fun c => c ≠ '/')).reverse⟩

/-- Whether `path` exists in the working tree (Python
`os.path.exists(os.path.join(self.repo_path, path))` for a file). -/
def fsLookup (fs : Fs) (path : String) : Option (List String) :=
  (List.find? (fun e => e.1 = path) fs).map Prod.snd

/-- `PatchApplier._find_file_recursive` (`patch_applier.py` lines 90-104):
search the tree for a file with the given basename and return the first
match in walk order (modelled as list order; the walk's own order is the
only ordering the source promises). -/
def findFileRecursive (fs : Fs) (filename : String) : Option String :=
  (List.find? (fun e => basename e.1 = filename) fs).map Prod.fst

/-- One line of `PatchApplier._smart_resolve_paths` (`patch_applier.py`
lines 63-86): a `--- a/` or `+++ b/` header whose path does not exist is
rewritten to the first file found by basename; all other lines (and headers
whose path exists, or with no file of that name anywhere) pass unchanged. -/
def smartResolveLine (fs : Fs) (line : String) : String :=
  if pyStartsWith line "--- a/" || pyStartsWith line "+++ b/" then
    let pre := ⟨line.data.take 6⟩
    let path := pyStrip (pyDrop line 6)
    if (fsLookup fs path).isSome then line
    else
      match findFileRecursive fs (basename path) with
      | some real => pre ++ real
      | none => line
  else line

/-- `PatchApplier._smart_resolve_paths`: rewrite the header lines of the
patch text. -/
def smartResolvePaths (fs : Fs) (t : String) : String :=
  joinNl ((pySplitLines t).map (smartResolveLine fs))

/-- The path resolution step of `PatchApplier._try_direct_replacement`
(`patch_applier.py` lines 218-227): use the parsed path if it exists,
otherwise fall back to the recursive by-name search. -/
def resolveFile (fs : Fs) (path : String) : Option String :=
  if (fsLookup fs path).isSome then some path
  else findFileRecursive fs (basename path)

/-- The replacement text written into the file (`patch_applier.py` line
247): the new line, with a newline appended when it does not end in one. -/
def ensureNl (s : String) : String :=
  if pyEndsWith s "\n" then s else s ++ "\n"

/-- The inner loop of `_try_direct_replacement` (`patch_applier.py` lines
242-250): scan the file lines top to bottom and replace the first line the
fuzzy matcher accepts, reporting whether a replacement happened. -/
def applyOneEdit (old new : String) : List String → List String × Bool
  | [] => ([], false)
  | l :: rest =>
    if linesMatch l old then (ensureNl new :: rest, true)
    else
      let r := applyOneEdit old new rest
      (l :: r.1, r.2)

/-- The outer loop of `_try_direct_replacement` (`patch_applier.py` lines
234-253): apply each edit in order to the evolving line list; the flag is
Python's `changes_made`, true when at least one edit was applied.  An edit
with no matching line leaves the lines unchanged (a warning is printed and
the loop continues). -/
def applyEdits : List String → List LineEdit → List String × Bool
  | lines, [] => (lines, false)
  | lines, e :: es =>
    let r1 := applyOneEdit e.old e.new lines
    let r2 := applyEdits r1.1 es
    (r2.1, r1.2 || r2.2)

/-- The lines of the resolved file (`patch_applier.py` lines 230-231);
resolution guarantees membership, so the default is never taken. -/
def fileLines (fs : Fs) (target : String) : List String :=
  (fsLookup fs target).getD []

/-- Writing the modified lines back (`patch_applier.py` lines 260-261). -/
def fsWrite (fs : Fs) (target : String) (lines : List String) : Fs :=
  List.map (fun e => if e.1 = target then (e.1, lines) else e) fs

/-- `PatchApplier._try_direct_replacement` (`patch_applier.py` lines
205-267): parse the diff, resolve the single target file, apply the edits,
and succeed only when at least one change was made.  The pair is the
returned boolean together with the resulting working tree. -/
def tryDirectReplacement (fs : Fs) (p : String) : Bool × Fs :=
  match parseDiff p with
  | none => (false, fs)
  | some doc =>
    match resolveFile fs doc.path with
    | none => (false, fs)
    | some target =>
      let r := applyEdits (fileLines fs target) doc.changes
      if r.2 then (true, fsWrite fs target r.1) else (false, fs)

/-- The text-preparation pipeline of `PatchApplier.apply_patch`
(`patch_applier.py` lines 16-27): strip markdown fences, strip whitespace,
normalize `/workspace/` prefixes, smart-resolve stale header paths. -/
def preparePatch (fs : Fs) (raw : String) : String :=
  smartResolvePaths fs (normalizePaths (pyStrip (stripFences raw)))

/-- `PatchApplier.apply_patch` (`patch_applier.py` lines 9-44) with the
external `git apply` subprocess abstracted as an oracle from patch text to
an optional post-apply working tree (`none` = non-zero exit).  The snapshot
step mutates only version-control state, not the working tree, and is
modelled separately (see `createCleanSnapshot`). -/
def applyPatch (git : String → Option Fs) (fs : Fs) (raw : String) : Bool × Fs :=
  let p := preparePatch fs raw
  match git p with
  | some fs2 => (true, fs2)
  | none => tryDirectReplacement fs p

/-- The scripting-issue indicator list of `FailureAnalyzer._classify_issue`
(`failure_analyzer.py` lines 78-85). -/
def scriptingIndicators : List String :=
  ["NoSuchElementException", "ElementNotFoundException",
   "StaleElementReferenceException", "AssertionError",
   "ComparisonFailure", "junit.framework.AssertionFailedError"]

/-- The system-issue indicator list of `FailureAnalyzer._classify_issue`
(`failure_analyzer.py` lines 87-92). -/
def systemIndicators : List String :=
  ["ConnectException", "SocketTimeoutException", "OutOfMemoryError", "SQLException"]

/-- The concatenated text `f"{failure_type} {message} {stack_trace}"`
(`failure_analyzer.py` line 94). -/
def fullText (failureType message stackTrace : String) : String :=
  failureType ++ " " ++ message ++ " " ++ stackTrace

/-- `FailureAnalyzer._classify_issue` (`failure_analyzer.py` lines 76-104):
`true` means scripting issue; any system indicator wins first, then any
scripting indicator, and the default is `false` (not a scripting issue). -/
def classifyIssue (failureType message stackTrace : String) : Bool :=
  let full := fullText failureType message stackTrace
  if systemIndicators.any (fun ind => hasSubstr full ind) then false
  else if scriptingIndicators.any (fun ind => hasSubstr full ind) then true
  else false

/-- A JUnit-style XML element as `xml.etree.ElementTree` exposes it: a tag,
attributes, optional text body, and child elements. -/
inductive Xml where
  | elem (tag : String) (attrs : List (String × String)) (text : Option String) (children : List Xml)

/-- The element's tag. -/
def Xml.tag : Xml → String
  | .elem t _ _ _ => t

/-- The element's attributes. -/
def Xml.attrs : Xml → List (String × String)
  | .elem _ a _ _ => a

/-- The element's text body (`Element.text`). -/
def Xml.textBody : Xml → Option String
  | .elem _ _ tx _ => tx

/-- The element's direct children. -/
def Xml.children : Xml → List Xml
  | .elem _ _ _ cs => cs

/-- `Element.find(tag)`: the first direct child with the given tag. -/
def Xml.findChild (x : Xml) (t : String) : Option Xml :=
  x.children.find? (fun c => c.tag = t)

/-- `Element.findall(tag)`: all direct children with the given tag. -/
def Xml.findAllChildren (x : Xml) (t : String) : List Xml :=
  x.children.filter (fun c => c.tag = t)

/-- `element.attrib.get(key, default)`. -/
def attrGet (attrs : List (String × String)) (key dflt : String) : String :=
  ((attrs.find? (fun p => p.1 = key)).map Prod.snd).getD dflt

/-- The `FailureContext` dataclass of `failure_analyzer.py` (lines 6-14). -/
structure FailureContext where
  test_class : String
  test_name : String
  failure_type : String
  message : String
  stack_trace : String
  file_path : Option String := none
  is_scripting_issue : Bool := false
deriving DecidableEq, Repr

/-- The per-testcase body of `FailureAnalyzer._parse_file` (`failure_analyzer.py`
lines 49-70): take the `failure` child if present, else the `error` child,
and build a classified record. -/
def contextOfTestcase (cls : String) (tc : Xml) : Option FailureContext :=
  let issue := (tc.findChild "failure").orElse (fun _ => tc.findChild "error")
  issue.map (fun iss =>
    let ft := attrGet iss.attrs "type" "Unknown"
    let msg := attrGet iss.attrs "message" ""
    let st := iss.textBody.getD ""
    { test_class := cls
      test_name := attrGet tc.attrs "name" "Unknown"
      failure_type := ft
      message := msg
      stack_trace := st
      file_path := none
      is_scripting_issue := classifyIssue ft msg st })

/-- `FailureAnalyzer._parse_file` (`failure_analyzer.py` lines 34-74) on the
result of `ET.parse`: `none` stands for a file on which `ET.parse` raised
`ParseError`, which the source catches, logs and skips, yielding no
contexts.  A `testsuite` root is its own single suite; any other root
contributes its `testsuite` children (the separate `testsuites` branch in
the source computes the same list). -/
def parseReportFile (doc : Option Xml) : List FailureContext :=
  match doc with
  | none => []
  | some root =>
    let suites := if root.tag = "testsuite" then [root] else root.findAllChildren "testsuite"
    (suites.map (fun suite =>
      let cls := attrGet suite.attrs "name" "Unknown"
      (suite.findAllChildren "testcase").filterMap (contextOfTestcase cls))).flatten

/-- A results directory: `none` when the path does not exist, otherwise the
files found by the walk, as (filename, parsed XML) pairs where `none` in
the second slot marks a file `ET.parse` rejects. -/
abbrev ResultsDir : Type := Option (List (String × Option Xml))

/-- `FailureAnalyzer.analyze` (`failure_analyzer.py` lines 20-32): an absent
directory yields `[]`; otherwise every `TEST-*.xml` file contributes the
contexts parsed from it, in walk order. -/
def analyzeResults (dir : ResultsDir) : List FailureContext :=
  match dir with
  | none => []
  | some files =>
    ((files.filter (fun f => pyEndsWith f.1 ".xml" && pyStartsWith f.1 "TEST-")).map
      (fun f => parseReportFile f.2)).flatten

/-- Version-control state of the working tree: the files on disk and the
files recorded in the `HEAD` commit, both as partial maps from path to
byte-exact content. -/
structure RepoState where
  working : String → Option String
  head : String → Option String

/-- The source-file patterns staged by `PatchApplier._create_clean_snapshot`
(`patch_applier.py` line 113): `src/`, `gradle/`, `*.gradle`, `*.xml`,
`*.yml`, `*.yaml`, `*.properties`. -/
def isSourceFile (p : String) : Bool :=
  pyStartsWith p "src/" || pyStartsWith p "gradle/" || pyEndsWith p ".gradle" ||
  pyEndsWith p ".xml" || pyEndsWith p ".yml" || pyEndsWith p ".yaml" ||
  pyEndsWith p ".properties"

/-- Modelled from the spec: the SnapshotManager checkpoint (§2, §4.4 step 4)
behind `PatchApplier._create_clean_snapshot` (`patch_applier.py` lines
106-134), whose effect is delegated to the external `git add`/`git commit`
subprocesses not present in the repository: after the snapshot, `HEAD`
records the current working content of every source-pattern file, and other
paths keep their previous committed content. -/
def createCleanSnapshot (st : RepoState) : RepoState :=
  { st with head := fun p => if isSourceFile p then st.working p else st.head p }

/-- Modelled from the spec: the SnapshotManager hard reset (§2) behind
`PatchApplier.revert_changes` (`patch_applier.py` lines 318-323), delegated
to the external `git reset --hard HEAD` subprocess: every path recorded in
`HEAD` gets its committed content back on disk, and untracked paths are
left alone. -/
def revertChanges (st : RepoState) : RepoState :=
  { st with working := fun p => match st.head p with
      | some c => some c
      | none => st.working p }


/-- A `+++` header line in either accepted form (spec reading for C7). -/
def isPlusHeader (l : String) : Bool :=
  pyStartsWith l "+++ b/" || pyStartsWith l "+++ "

/-- The path a `+++` header line carries (spec reading for C7). -/
def extractPlusPath (l : String) : String :=
  if pyStartsWith l "+++ b/" then pyStrip (pyDrop l 6) else pyStrip (pyDrop l 4)

/-- Declarative description of the header scan, stated from the observed
break/no-break structure: the first `+++` header line of either form wins;
failing that, the last `--- a/` line. -/
def specPath (lines : List String) : Option String :=
  match lines.find? isPlusHeader with
  | some l => some (extractPlusPath l)
  | none =>
    ((lines.filter (fun l => pyStartsWith l "--- a/")).getLast?).map
      (fun l => pyStrip (pyDrop l 6))

/-- Concrete diff for the C2 witness. -/
def demoDiffText : String :=
  "--- a/Foo.java\n+++ b/Foo.java\n-old\n+new"

/-- The document `_parse_diff` extracts from `demoDiffText`. -/
def demoDoc : PatchDoc :=
  ⟨"Foo.java", [⟨"old", "new"⟩]⟩

/-- Concrete text for the C7 counterexample: a bare `+++` header occurs
before a `+++ b/` header. -/
def c7Text : String :=
  "+++ alpha\n+++ b/beta\n-x\n+y"

/-- Working tree for the C4 counterexample: only `B.java` exists. -/
def c4Fs : Fs := [("B.java", ["old line B\n"])]

/-- Patch for the C4 counterexample: headers for a missing `A.java` first,
then headers and an applicable edit for the present `B.java`. -/
def c4Patch : String :=
  "--- a/A.java\n+++ b/A.java\n-old line A\n+new line A\n--- a/B.java\n+++ b/B.java\n-old line B\n+new line B"

/-- A JUnit report with one testcase holding a `NoSuchElementException`
failure, for C8. -/
def fooReportXml : Xml :=
  .elem "testsuite" [("name", "FooSuite")] none
    [.elem "testcase" [("name", "testBar")] none
      [.elem "failure" [("type", "NoSuchElementException"), ("message", "no such element")]
        (some "NoSuchElementException at Foo.bar") []]]

/-- The failure record scanning `fooReportXml` must produce, for C8. -/
def fooRecord : FailureContext :=
  { test_class := "FooSuite"
    test_name := "testBar"
    failure_type := "NoSuchElementException"
    message := "no such element"
    stack_trace := "NoSuchElementException at Foo.bar"
    file_path := none
    is_scripting_issue := true }

/-- Concrete repository state for the C9 witness. -/
def demoRepo : RepoState :=
  { working := fun p => if p = "src/A.java" then some "original content" else none
    head := fun _ => none }

/-- A failed patch attempt's effect on the working tree, for the C9
witness. -/
def demoMut : String → Option String :=
  fun p => if p = "src/A.java" then some "broken patched content" else none

/-! ## Theorems -/

theorem pyStartsWith_plus_not_minus (l : String) (h : pyStartsWith l "+" = true) :
    pyStartsWith l "-" = false := by
  unfold pyStartsWith at h ⊢
  have hp : "+".data = ['+'] := rfl
  have hm : "-".data = ['-'] := rfl
  rw [hp] at h
  rw [hm]
  cases hd : l.data with
  | nil => rw [hd] at h; exact absurd h (by decide)
  | cons c cs =>
    rw [hd] at h
    simp [List.isPrefixOf] at h ⊢
    rw [← h]
    decide

theorem isAddLine_not_del (l : String) (h : isAddLine l = true) : isDelLine l = false := by
  unfold isAddLine at h
  unfold isDelLine
  have h1 : pyStartsWith l "+" = true := by
    cases hp : pyStartsWith l "+" with
    | true => rfl
    | false => rw [hp] at h; simp at h
  rw [pyStartsWith_plus_not_minus l h1]
  rfl

theorem allAdjacentPairs_cons_add (l : String) (rest : List String)
    (h : isAddLine l = true) : allAdjacentPairs (l :: rest) = allAdjacentPairs rest := by
  cases rest with
  | nil => rfl
  | cons r rs =>
    have hd := isAddLine_not_del l h
    simp [allAdjacentPairs, hd]

/-- C5: `FuzzyLineMatcher.matches` (the `_lines_match` method) is reflexive on
every non-empty line, and any two lines equal after removing all whitespace
are judged to match. -/
theorem claimC5 (a b : String) :
    (a ≠ "" → linesMatch a a = true) ∧
    (removeWs a = removeWs b → linesMatch a b = true) := by
  constructor
  · intro _
    simp [linesMatch]
  · intro h
    by_cases h1 : pyStrip a = pyStrip b <;> simp [linesMatch, h1, h]

theorem claimC5_witness :
    ("x = 1;" ≠ "" ∧ linesMatch "x = 1;" "x = 1;" = true) ∧
    (removeWs "  a b" = removeWs "ab" ∧ linesMatch "  a b" "ab" = true) :=
  ⟨⟨by decide, (claimC5 "x = 1;" "x = 1;").1 (by decide)⟩,
   ⟨by decide, (claimC5 "  a b" "ab").2 (by decide)⟩⟩

/-- C6: the third matching pass accepts two lines that agree after stripping
leading zeros from multi-digit runs (not already preceded by a digit) and
then removing whitespace; `01` matches `1`, a lone `0` is unchanged by the
normalization and does not match `1`. -/
theorem claimC6 (a b : String) :
    (removeWs (normalizeNums (pyStrip a)) = removeWs (normalizeNums (pyStrip b)) →
      linesMatch a b = true) ∧
    linesMatch "x = 01;" "x = 1;" = true ∧
    normalizeNums "0" = "0" ∧
    linesMatch "0" "1" = false := by
  refine ⟨?_, by decide, by decide, by decide⟩
  intro h
  by_cases h1 : pyStrip a = pyStrip b
  · simp [linesMatch, h1]
  · by_cases h2 : removeWs a = removeWs b <;> simp [linesMatch, h1, h2, h]

theorem claimC6_witness :
    removeWs (normalizeNums (pyStrip " y(01)")) = removeWs (normalizeNums (pyStrip "y(1)")) ∧
    linesMatch " y(01)" "y(1)" = true :=
  ⟨by decide, (claimC6 " y(01)" "y(1)").1 (by decide)⟩

/-- C3: `_classify_issue` is total and deterministic (it is a function into
`Bool`, so each triple yields exactly one of the two classifications), any
system indicator in the concatenated text forces the system classification
even when a scripting indicator is also present, and a triple matching
neither indicator list defaults to the non-scripting classification. -/
theorem claimC3 (ft msg st : String) :
    (classifyIssue ft msg st = true ∨ classifyIssue ft msg st = false) ∧
    (systemIndicators.any (fun ind => hasSubstr (fullText ft msg st) ind) = true →
      classifyIssue ft msg st = false) ∧
    classifyIssue "Error" "both SocketTimeoutException and AssertionError occurred" "" = false ∧
    (systemIndicators.any (fun ind => hasSubstr (fullText ft msg st) ind) = false →
      scriptingIndicators.any (fun ind => hasSubstr (fullText ft msg st) ind) = false →
      classifyIssue ft msg st = false) := by
  refine ⟨?_, ?_, by decide, ?_⟩
  · cases h : classifyIssue ft msg st
    · exact Or.inr rfl
    · exact Or.inl rfl
  · intro h
    simp [classifyIssue, h]
  · intro h1 h2
    simp [classifyIssue, h1, h2]

theorem claimC3_witness :
    systemIndicators.any
      (fun ind => hasSubstr (fullText "SocketTimeoutException" "also AssertionError" "t") ind) = true ∧
    classifyIssue "SocketTimeoutException" "also AssertionError" "t" = false :=
  ⟨by decide, (claimC3 "SocketTimeoutException" "also AssertionError" "t").2.1 (by decide)⟩

theorem parseChanges_eq_allAdjacentPairs : ∀ lines, parseChanges lines = allAdjacentPairs lines := by
  intro lines
  induction lines using parseChanges.induct with
  | case1 => rfl
  | case2 => rfl
  | case3 l1 l2 rest hcond ih =>
    have hadd : isAddLine l2 = true := by
      cases ha : isAddLine l2 with
      | true => rfl
      | false => rw [ha, Bool.and_false] at hcond; exact absurd hcond (by decide)
    simp [parseChanges, allAdjacentPairs, hcond, ih, allAdjacentPairs_cons_add l2 rest hadd]
  | case4 l1 l2 rest hcond ih =>
    simp [parseChanges, allAdjacentPairs, hcond, ih]

/-- C2: whenever `_parse_diff` succeeds, the recorded edits are exactly the
adjacent delete/add pairs of the input's lines — a line starting with `-`
(not `---`) immediately followed by a line starting with `+` (not `+++`) —
in source order, with nothing recorded for any other line. -/
theorem claimC2 (t : String) (doc : PatchDoc) (h : parseDiff t = some doc) :
    doc.changes = allAdjacentPairs (pySplitLines t) := by
  have h : (match findPath (pySplitLines t) none with
      | none => none
      | some p =>
        if p = "" then none
        else some (⟨p, parseChanges (pySplitLines t)⟩ : PatchDoc)) = some doc := h
  cases hf : findPath (pySplitLines t) none with
  | none => rw [hf] at h; cases h
  | some p =>
    rw [hf] at h
    by_cases hp : p = ""
    · simp [hp] at h
    · simp [hp] at h
      rw [← h]
      exact parseChanges_eq_allAdjacentPairs _

theorem claimC2_witness :
    parseDiff demoDiffText = some demoDoc ∧
    demoDoc.changes = allAdjacentPairs (pySplitLines demoDiffText) :=
  ⟨by decide, claimC2 demoDiffText demoDoc (by decide)⟩

theorem getLast?_cons_eq {α : Type} (a : α) (l : List α) :
    (a :: l).getLast? = some (l.getLast?.getD a) := by
  induction l generalizing a with
  | nil => rfl
  | cons b t ih =>
    rw [List.getLast?_cons_cons, ih b]
    simp

theorem findPath_eq (lines : List String) (acc : Option String) :
    findPath lines acc =
      (match lines.find? isPlusHeader with
       | some l => some (extractPlusPath l)
       | none =>
         match (lines.filter (fun l => pyStartsWith l "--- a/")).getLast? with
         | some l => some (pyStrip (pyDrop l 6))
         | none => acc) := by
  induction lines generalizing acc with
  | nil => rfl
  | cons l rest ih =>
    by_cases h1 : pyStartsWith l "+++ b/" = true
    · have hph : isPlusHeader l = true := by simp [isPlusHeader, h1]
      simp [findPath, h1, List.find?_cons, hph, extractPlusPath]
    · by_cases h2 : pyStartsWith l "+++ " = true
      · have hph : isPlusHeader l = true := by simp [isPlusHeader, h2]
        simp [findPath, h1, h2, List.find?_cons, hph, extractPlusPath]
      · have hph : isPlusHeader l = false := by
          simp [isPlusHeader, h1, h2]
        by_cases h3 : pyStartsWith l "--- a/" = true
        · rw [show findPath (l :: rest) acc = findPath rest (some (pyStrip (pyDrop l 6))) by
            simp [findPath, h1, h2, h3]]
          rw [ih]
          simp only [List.find?_cons, hph, List.filter_cons, h3, if_true]
          cases hf : rest.find? isPlusHeader with
          | some m => simp
          | none =>
            simp only
            rw [getLast?_cons_eq]
            cases hl : (rest.filter (fun l => pyStartsWith l "--- a/")).getLast? with
            | some m => simp [hl]
            | none => simp [hl]
        · rw [show findPath (l :: rest) acc = findPath rest acc by
            simp [findPath, h1, h2, h3]]
          rw [ih]
          simp only [List.find?_cons, hph, List.filter_cons, h3]
          simp

/-- C7: amended header-selection behavior of `_parse_diff`: the scan takes
the path from the first line starting with `+++ b/` or `+++ ` (whichever
line occurs first in the text, stopping there), falls back to the last
`--- a/` line when no `+++` header line exists, and yields no document
exactly when no header of the three forms is present or the selected path
strips to the empty string. -/
theorem claimC7 (t : String) :
    parseDiff t =
      (match specPath (pySplitLines t) with
       | none => none
       | some p =>
         if p = "" then none else some ⟨p, parseChanges (pySplitLines t)⟩) := by
  show (match findPath (pySplitLines t) none with
        | none => none
        | some p =>
          if p = "" then none
          else some (⟨p, parseChanges (pySplitLines t)⟩ : PatchDoc)) =
      _
  rw [findPath_eq]
  unfold specPath
  cases hf : (pySplitLines t).find? isPlusHeader with
  | some m => simp
  | none =>
    simp only
    cases hl : ((pySplitLines t).filter (fun l => pyStartsWith l "--- a/")).getLast? with
    | some m => simp
    | none => simp

/-- C7 fails as stated: in `c7Text` a `+++ b/beta` header exists, yet the
parser returns the path of the earlier bare `+++ alpha` header, because the
loop breaks at the first `+++` line of either form. -/
theorem claimC7_counterexample :
    hasSubstr c7Text "+++ b/beta" = true ∧
    parseDiff c7Text = some ⟨"alpha", [⟨"x", "y"⟩]⟩ ∧
    ("alpha" : String) ≠ "beta" :=
  ⟨by decide, by decide, by decide⟩

theorem dropWsFuel_congr : ∀ (f1 f2 : Nat) (l : List Char),
    l.length ≤ f1 → l.length ≤ f2 → dropWsFuel f1 l = dropWsFuel f2 l := by
  intro f1
  induction f1 with
  | zero =>
    intro f2 l h1 _
    have : l = [] := List.eq_nil_of_length_eq_zero (Nat.le_zero.mp h1)
    subst this
    cases f2 <;> rfl
  | succ f1 ih =>
    intro f2 l h1 h2
    cases l with
    | nil => cases f2 <;> rfl
    | cons c cs =>
      cases f2 with
      | zero => simp at h2
      | succ f2 =>
        simp only [List.length_cons] at h1 h2
        simp only [dropWsFuel]
        cases hp : wsPat.isPrefixOf (c :: cs) with
        | true =>
          rw [if_pos rfl, if_pos rfl]
          apply ih
          · simp only [List.length_drop, List.length_cons]
            omega
          · simp only [List.length_drop, List.length_cons]
            omega
        | false =>
          rw [if_neg (by simp), if_neg (by simp)]
          rw [ih f2 cs (by omega) (by omega)]

theorem dropWs_of_no_sub : ∀ (fuel : Nat) (l : List Char),
    l.length ≤ fuel → listHasSub wsPat l = false → dropWsFuel fuel l = l := by
  intro fuel
  induction fuel with
  | zero =>
    intro l h1 _
    have : l = [] := List.eq_nil_of_length_eq_zero (Nat.le_zero.mp h1)
    subst this
    rfl
  | succ fuel ih =>
    intro l h1 h2
    cases l with
    | nil => rfl
    | cons c cs =>
      simp only [listHasSub, Bool.or_eq_false_iff] at h2
      simp only [List.length_cons] at h1
      simp only [dropWsFuel]
      rw [h2.1, if_neg (by simp)]
      rw [ih cs (by omega) h2.2]

theorem prefix_append_self : ∀ (p l : List Char), p.isPrefixOf (p ++ l) = true := by
  intro p l
  induction p with
  | nil => simp [List.isPrefixOf]
  | cons a as ih => simp [List.isPrefixOf, ih]

theorem dropWs_append_pat (fuel : Nat) (d : List Char) :
    dropWsFuel (fuel + 1) (wsPat ++ d) = dropWsFuel fuel d := by
  have hcons : wsPat ++ d = '/' :: ("workspace/".data ++ d) := rfl
  have hpre : wsPat.isPrefixOf ('/' :: ("workspace/".data ++ d)) = true := by
    rw [← hcons]
    exact prefix_append_self wsPat d
  rw [hcons]
  simp only [dropWsFuel, hpre, if_true]
  congr 1

/-- C10: amended path-normalization behavior: `_normalize_paths` deletes, in
one left-to-right scan, each non-overlapping occurrence of `/workspace/`
wherever it appears — header, context and edit lines alike (third
conjunct) — a text without the substring passes unchanged (first conjunct),
and a leading occurrence is deleted (second conjunct); but the result can
still contain `/workspace/` when a deletion splices the surrounding text
into a new occurrence, so later stages are not guaranteed a
`/workspace/`-free text (see the counterexample). -/
theorem claimC10 :
    (∀ s : String, listHasSub wsPat s.data = false → normalizePaths s = s) ∧
    (∀ s : String, normalizePaths ("/workspace/" ++ s) = normalizePaths s) ∧
    normalizePaths
        "--- a//workspace/src/A.java\n context /workspace/x\n-del /workspace/y\n+add /workspace/z" =
      "--- a/src/A.java\n context x\n-del y\n+add z" := by
  refine ⟨?_, ?_, by decide⟩
  · intro s h
    obtain ⟨d⟩ := s
    unfold normalizePaths
    exact congrArg String.mk (dropWs_of_no_sub d.length d (Nat.le_refl _) h)
  · intro s
    obtain ⟨d⟩ := s
    unfold normalizePaths
    have hd : ("/workspace/" ++ (⟨d⟩ : String)).data = wsPat ++ d := rfl
    rw [hd]
    have hlen : (wsPat ++ d).length = (d.length + 10) + 1 := by
      rw [List.length_append]
      have h11 : wsPat.length = 11 := rfl
      rw [h11]
      omega
    rw [hlen, dropWs_append_pat]
    exact congrArg String.mk
      (dropWsFuel_congr (d.length + 10) d.length d (by omega) (Nat.le_refl _))

/-- C10 fails as stated: normalizing `/work/workspace/space/` deletes the one
occurrence of `/workspace/` but the splice creates a new one, so the text
handed to later stages still contains `/workspace/`. -/
theorem claimC10_counterexample :
    normalizePaths "/work/workspace/space/" = "/workspace/" ∧
    listHasSub wsPat (normalizePaths "/work/workspace/space/").data = true :=
  ⟨by decide, by decide⟩

theorem claimC10_witness :
    listHasSub wsPat ("no container paths".data) = false ∧
    normalizePaths "no container paths" = "no container paths" :=
  ⟨by decide, claimC10.1 "no container paths" (by decide)⟩

theorem applyOneEdit_eq (old new : String) : ∀ lines : List String,
    applyOneEdit old new lines =
      match lines.findIdx? (fun l => linesMatch l old) with
      | some i => (lines.set i (ensureNl new), true)
      | none => (lines, false) := by
  intro lines
  induction lines with
  | nil => rfl
  | cons c rest ih =>
    rw [List.findIdx?_cons]
    by_cases h : linesMatch c old = true
    · rw [if_pos (by simpa using h)]
      simp [applyOneEdit, h]
    · rw [if_neg (by simpa using h), List.findIdx?_succ]
      simp only [applyOneEdit, h, if_false, Bool.false_eq_true]
      rw [ih]
      cases hf : List.findIdx? (fun l => linesMatch l old) rest 0 with
      | some i => simp [List.set_cons_succ]
      | none => simp

/-- C1: `apply_patch` succeeds exactly when the strict git-apply strategy
succeeds, or it fails and the direct-replacement fallback applies at least
one edit (first conjunct; Strategy B's result is consulted only when the
oracle returns failure).  Strategy B replaces, for each edit, the first
file line the fuzzy matcher accepts (second conjunct), skips an edit with
no matching line without affecting the rest (third conjunct), and — when
the diff parses and the target file resolves — succeeds exactly when its
edit loop applied at least one edit (fourth conjunct, `changes_made`). -/
theorem claimC1 :
    (∀ (git : String → Option Fs) (fs : Fs) (raw : String),
      ((applyPatch git fs raw).1 = true ↔
        (git (preparePatch fs raw)).isSome = true ∨
        (git (preparePatch fs raw) = none ∧
          (tryDirectReplacement fs (preparePatch fs raw)).1 = true))) ∧
    (∀ (old new : String) (lines : List String),
      applyOneEdit old new lines =
        match lines.findIdx? (fun l => linesMatch l old) with
        | some i => (lines.set i (ensureNl new), true)
        | none => (lines, false)) ∧
    (∀ (lines : List String) (e : LineEdit) (es : List LineEdit),
      lines.findIdx? (fun l => linesMatch l e.old) = none →
      applyEdits lines (e :: es) = applyEdits lines es) ∧
    (∀ (fs : Fs) (p : String) (doc : PatchDoc) (target : String),
      parseDiff p = some doc → resolveFile fs doc.path = some target →
      ((tryDirectReplacement fs p).1 = true ↔
        (applyEdits (fileLines fs target) doc.changes).2 = true)) := by
  refine ⟨?_, applyOneEdit_eq, ?_, ?_⟩
  · intro git fs raw
    cases hg : git (preparePatch fs raw) with
    | some fs2 => simp [applyPatch, hg]
    | none => simp [applyPatch, hg]
  · intro lines e es h
    simp only [applyEdits]
    rw [applyOneEdit_eq, h]
    simp
  · intro fs p doc target h1 h2
    simp only [tryDirectReplacement, h1, h2]
    by_cases hr : (applyEdits (fileLines fs target) doc.changes).2 = true
    · simp [hr]
    · simp [hr]

theorem claimC1_witness :
    (["keep this line\n"].findIdx? (fun l => linesMatch l "absent line") = none) ∧
    applyEdits ["keep this line\n"] [⟨"absent line", "replacement"⟩] =
      applyEdits ["keep this line\n"] [] :=
  ⟨by decide,
   claimC1.2.2.1 ["keep this line\n"] ⟨"absent line", "replacement"⟩ [] (by decide)⟩

/-- C4: amended behavior: `_parse_diff` extracts a single target path per
patch document (all delete/add pairs in the document are attributed to that
one file), so when that file cannot be found by name anywhere under the
repository root, Strategy B fails as a whole and applies no edits at all —
no other file's edits proceed. -/
theorem claimC4 (fs : Fs) (p : String) (doc : PatchDoc)
    (h1 : parseDiff p = some doc) (h2 : resolveFile fs doc.path = none) :
    tryDirectReplacement fs p = (false, fs) := by
  simp [tryDirectReplacement, h1, h2]

/-- C4 fails as stated: `c4Patch` carries headers and an edit for the
missing `A.java` and also headers and an applicable edit for the present
`B.java`, yet Strategy B drops nothing selectively — it parses the single
path `A.java`, fails to resolve it, returns failure, and leaves `B.java`
untouched, even though its edit's old line matches the file content. -/
theorem claimC4_counterexample :
    (parseDiff c4Patch).map PatchDoc.path = some "A.java" ∧
    (parseDiff c4Patch).map PatchDoc.changes =
      some [⟨"old line A", "new line A"⟩, ⟨"old line B", "new line B"⟩] ∧
    fsLookup c4Fs "B.java" = some ["old line B\n"] ∧
    linesMatch "old line B\n" "old line B" = true ∧
    tryDirectReplacement c4Fs c4Patch = (false, c4Fs) :=
  ⟨by decide, by decide, by decide, by decide, by decide⟩

theorem claimC4_witness :
    parseDiff c4Patch =
      some ⟨"A.java", [⟨"old line A", "new line A"⟩, ⟨"old line B", "new line B"⟩]⟩ ∧
    resolveFile c4Fs "A.java" = none ∧
    tryDirectReplacement c4Fs c4Patch = (false, c4Fs) :=
  ⟨by decide, by decide,
   claimC4 c4Fs c4Patch ⟨"A.java", [⟨"old line A", "new line A"⟩, ⟨"old line B", "new line B"⟩]⟩
     (by decide) (by decide)⟩

/-- C8: scanning a non-existent results directory yields the empty sequence;
a directory with one `TEST-Foo.xml` whose single testcase holds a
`NoSuchElementException` failure yields exactly one record classified as a
scripting issue; and a malformed report file (one `ET.parse` rejects) is
skipped while the scan continues over the remaining files. -/
theorem claimC8 :
    analyzeResults none = [] ∧
    analyzeResults (some [("TEST-Foo.xml", some fooReportXml)]) = [fooRecord] ∧
    fooRecord.is_scripting_issue = true ∧
    analyzeResults (some [("TEST-Bad.xml", none), ("TEST-Foo.xml", some fooReportXml)]) =
      [fooRecord] :=
  ⟨rfl, by decide, by decide, by decide⟩

/-- C9: after a snapshot, an arbitrary mutation of the working tree by a
failed patch attempt, and a revert, every source file that existed at
snapshot time has content byte-for-byte identical to its pre-attempt
content. -/
theorem claimC9 (st : RepoState) (tamper : String → Option String) (f : String)
    (hsrc : isSourceFile f = true) (hsome : (st.working f).isSome = true) :
    (revertChanges { createCleanSnapshot st with working := tamper }).working f =
      st.working f := by
  obtain ⟨c, hc⟩ := Option.isSome_iff_exists.mp hsome
  simp [revertChanges, createCleanSnapshot, hsrc, hc]

theorem claimC9_witness :
    isSourceFile "src/A.java" = true ∧
    (demoRepo.working "src/A.java").isSome = true ∧
    (revertChanges { createCleanSnapshot demoRepo with working := demoMut }).working
        "src/A.java" =
      demoRepo.working "src/A.java" :=
  ⟨by decide, by decide,
   claimC9 demoRepo demoMut "src/A.java" (by decide) (by decide)⟩
